import Mathlib

/-!
# Verification of the jazz-lines connection and categorization engine

Shallow embedding of the core of the `jazz-lines` repository:
the degree/semitone model and `canConnect` from `src/theory/chords.js`,
the post-selection and first-selection classifiers and
`categorizeByFunction` from `src/App.jsx`, the note parser
(`parseNote`), `noteToDegree`, `notesToIntervals` and `buildJazzLine`
from the theory modules.

JavaScript numbers are modelled as `Int` (the code only performs
integer arithmetic here); JS `%` is `Int.tmod` (sign of the dividend);
strings are Lean `String`s; `undefined`/`null` fields are `Option`;
JS reference identity of line objects is modelled by value equality of
a `Line` record carrying a distinguishing `id` field.
-/

set_option maxHeartbeats 1000000

namespace JazzLines

/-! ## Degree → semitone model (`src/theory/chords.js`) -/

/-- The characters accepted by the accidental character class
`[b#♭♯n♮]` with the `i` flag (so `B` and `N` also match). -/
def isAccChar (c : Char) : Bool :=
  c = 'b' || c = 'B' || c = '#' || c = '♭' || c = '♯' || c = 'n' || c = 'N' || c = '♮'

/-- The base map `{1:0, 2:2, 3:4, 4:5, 5:7, 6:9, 7:11}` keyed by the
degree digit. -/
def baseMap (num : Nat) : Option Int :=
  if num = 1 then some 0
  else if num = 2 then some 2
  else if num = 3 then some 4
  else if num = 4 then some 5
  else if num = 5 then some 7
  else if num = 6 then some 9
  else if num = 7 then some 11
  else none

/-- Accidental contribution: flats lower by 1, sharps raise by 1,
natural signs contribute nothing (the JS loop checks
`b`, `♭`, `B` for -1 and `#`, `♯` for +1 after lowercasing). -/
def accDelta (c : Char) : Int :=
  if c = 'b' || c = '♭' || c = 'B' then -1
  else if c = '#' || c = '♯' then 1
  else 0

/-- JS `String.prototype.trim` on the character list. -/
def trimChars (cs : List Char) : List Char :=
  ((cs.dropWhile Char.isWhitespace).reverse.dropWhile Char.isWhitespace).reverse

/-- Source: `degreeToSemitone` from `src/theory/chords.js`: trims, matches
`^([b#♭♯n♮]*)([1-7])([b#♭♯n♮]*)$/i`, folds base degree plus accidental
offsets; `(sem + delta + 12) % 12` with JS `%` (`Int.tmod`).
A falsy argument (`null`/`undefined`/`""`) yields `null`. -/
def degreeToSemitone (deg : Option String) : Option Int :=
  match deg with
  | none => none
  | some d =>
    if d = "" then none
    else
      let cs := trimChars d.toList
      let pre := cs.takeWhile isAccChar
      let rest := cs.dropWhile isAccChar
      match rest with
      | [] => none
      | digit :: post =>
        if ('1' ≤ digit && digit ≤ '7') && post.all isAccChar then
          match baseMap (digit.toNat - '0'.toNat) with
          | none => none
          | some sem =>
            let delta := (pre ++ post).foldl (fun acc ch => acc + accDelta ch) 0
            some ((sem + delta + 12).tmod 12)
        else none

/-- Source: `semitoneDistance` from `src/theory/chords.js`:
`min(|a-b| % 12, 12 - |a-b| % 12)`. -/
def semitoneDistance (a b : Int) : Int :=
  let diff := ((a - b).natAbs : Int).tmod 12
  min diff (12 - diff)

/-- Source: `forwardSemitoneDistance` from `src/theory/chords.js`:
`(to - from + 12) % 12` with JS `%`. -/
def forwardSemitoneDistance (from_ to_ : Int) : Int :=
  (to_ - from_ + 12).tmod 12

/-- The chord-tone degree labels `["1", "3", "5", "7"]`. -/
def CHORD_TONES : List String := ["1", "3", "5", "7"]

/-- The chord-tone semitones `CHORD_TONES.map(degreeToSemitone).filter(v => v !== null)`. -/
def chordSemis : List Int :=
  (CHORD_TONES.map (fun t => degreeToSemitone (some t))).filterMap id

/-- Source: `nearestChordToneAbove` from `src/theory/chords.js`: the chord-tone
semitone with the least strictly positive forward distance from the
given semitone (first encountered wins on ties). -/
def nearestChordToneAbove (semitone : Int) : Option Int :=
  (chordSemis.foldl
    (fun best cs =>
      let d := forwardSemitoneDistance semitone cs
      if d > 0 && d < best.2 then (some cs, d) else best)
    ((none : Option Int), (999 : Int))).1

/-- Source: `nearestChordToneBelow` from `src/theory/chords.js`: symmetric,
using the forward distance from the chord tone up to the semitone. -/
def nearestChordToneBelow (semitone : Int) : Option Int :=
  (chordSemis.foldl
    (fun best cs =>
      let d := forwardSemitoneDistance cs semitone
      if d > 0 && d < best.2 then (some cs, d) else best)
    ((none : Option Int), (999 : Int))).1

/-! ## Line objects

A classifier-level line: `start`/`endDeg` model the values of the JS
optional chains `line.start?.degree` / `line.end?.degree` (`none` when
the field or the degree is missing; `endDeg` because `end` is reserved
in Lean).  The `id` field models JS object identity: two occurrences
of "the same object" share all fields including `id`. -/

structure Line where
  id : Nat
  start : Option String
  endDeg : Option String
  libraryId : Option String
  tags : List String
deriving DecidableEq, Repr

/-- Shorthand for building classifier lines. -/
def mkLine (id : Nat) (start endDeg : Option String) : Line :=
  { id := id, start := start, endDeg := endDeg, libraryId := none, tags := [] }

/-- Source: `canConnect` from `src/theory/chords.js`, on nullable lines
(`lineA?.end?.degree` / `lineB?.start?.degree`). -/
def canConnect (lineA lineB : Option Line) : Bool :=
  let endd := lineA.bind Line.endDeg
  let start := lineB.bind Line.start
  match degreeToSemitone endd, degreeToSemitone start with
  | some endSem, some startSem =>
    let chromaticDist := semitoneDistance endSem startSem
    if chromaticDist = 1 || chromaticDist = 2 then true
    else
      let above := nearestChordToneAbove endSem
      let below := nearestChordToneBelow endSem
      if above = some startSem then true
      else if below = some startSem then true
      else false
  | _, _ => false

/-! ## Library filtering (`src/App.jsx`, `isLibraryEnabled`) -/

structure Library where
  id : String
  enabled : Bool
deriving DecidableEq, Repr

/-- Source: `isLibraryEnabled` from `src/App.jsx`: falsy id or `'user'` is
always enabled; otherwise look the library up, defaulting to enabled
when it is not found. -/
def isLibraryEnabled (libraryId : Option String) (libraries : List Library) : Bool :=
  match libraryId with
  | none => true
  | some lid =>
    if lid = "" || lid = "user" then true
    else
      match libraries.find? (fun l => l.id = lid) with
      | some lib => lib.enabled
      | none => true

/-! ## Post-selection classifier (`src/App.jsx`) -/

/-- Source: `SCALE_ORDER` from `src/theory/chords.js`. -/
def SCALE_ORDER : List String :=
  ["1", "b2", "2", "b3", "3", "4", "b5", "5", "b6", "6", "b7", "7"]

/-- Source: `SCALE_ORDER.indexOf(s)`: the index, or `-1` when absent. -/
def scaleIndexOf (s : String) : Int :=
  match SCALE_ORDER.findIdx? (fun t => t = s) with
  | some i => (i : Int)
  | none => -1

/-- Source: `startDeg ? SCALE_ORDER.indexOf(startDeg) : -1` — a falsy degree
(missing or empty) gives `-1` directly. -/
def degIdx (deg : Option String) : Int :=
  match deg with
  | none => -1
  | some s => if s = "" then -1 else scaleIndexOf s

/-- Source: `circularDistance` from the `src/App.jsx` classifier:
`min(|a-b|, n-|a-b|)` with `n = 12`. -/
def circularDistance (a b : Int) : Int :=
  let diff := ((a - b).natAbs : Int)
  min diff (12 - diff)

/-- Source: `forwardDistance` from the `src/App.jsx` classifier:
`(b - a + n) % n` with `n = 12` and JS `%`. -/
def forwardDistance (a b : Int) : Int :=
  (b - a + 12).tmod 12

/-- Source: `SCALE_ORDER[i]` with JS out-of-range semantics (`undefined`
never matches a chord tone). -/
def scaleOrderAt (i : Int) : Option String :=
  if i < 0 then none else SCALE_ORDER.get? i.toNat

/-- Source: `nearestChordToneAboveIndex` from `src/App.jsx`: first
`(idx + i) % n` for `i = 1..n` whose degree is a chord tone. -/
def nearestChordToneAboveIndex (idx : Int) : Option Int :=
  (List.range 12).findSome? (fun i =>
    let candidate := (idx + ((i : Int) + 1)).tmod 12
    match scaleOrderAt candidate with
    | some s => if CHORD_TONES.contains s then some candidate else none
    | none => none)

/-- Source: `nearestChordToneBelowIndex` from `src/App.jsx`: first
`(idx - i + n) % n` for `i = 1..n` whose degree is a chord tone. -/
def nearestChordToneBelowIndex (idx : Int) : Option Int :=
  (List.range 12).findSome? (fun i =>
    let candidate := (idx - ((i : Int) + 1) + 12).tmod 12
    match scaleOrderAt candidate with
    | some s => if CHORD_TONES.contains s then some candidate else none
    | none => none)

/-- The seven surfaced buckets of the post-selection classifier. -/
inductive BucketId
  | tied | halfUp | halfDown | wholeUp | wholeDown | chordUp | chordDown
deriving DecidableEq, Repr, Fintype

/-- Which bucket (if any) the post-selection classifier body assigns to
a candidate with start index `startIdx` given end index `endIdx`,
transcribing the branch structure of `lines.forEach` in `src/App.jsx`
after the exclusion guards: tied check first, then the `-1` guard,
then half step, whole step, chord tones, else dropped. -/
def postBucket (endIdx startIdx : Int) : Option BucketId :=
  if startIdx = endIdx then some .tied
  else if startIdx = -1 || endIdx = -1 then none
  else
    let chromDist := circularDistance endIdx startIdx
    let fwd := forwardDistance endIdx startIdx
    if chromDist = 1 then some (if fwd = 1 then .halfUp else .halfDown)
    else if chromDist = 2 then some (if fwd = 2 then .wholeUp else .wholeDown)
    else
      let aboveIdx := nearestChordToneAboveIndex endIdx
      let belowIdx := nearestChordToneBelowIndex endIdx
      if aboveIdx ≠ none && aboveIdx = some startIdx then some .chordUp
      else if belowIdx ≠ none && belowIdx = some startIdx then some .chordDown
      else none

/-- The seven bucket lists of the post-selection classifier. -/
structure Buckets where
  tied : List Line
  halfUp : List Line
  halfDown : List Line
  wholeUp : List Line
  wholeDown : List Line
  chordUp : List Line
  chordDown : List Line
deriving DecidableEq, Repr

def emptyBuckets : Buckets :=
  ⟨[], [], [], [], [], [], []⟩

/-- Source: `buckets.<k>.push(line)`. -/
def pushBucket (k : BucketId) (line : Line) (b : Buckets) : Buckets :=
  match k with
  | .tied => { b with tied := b.tied ++ [line] }
  | .halfUp => { b with halfUp := b.halfUp ++ [line] }
  | .halfDown => { b with halfDown := b.halfDown ++ [line] }
  | .wholeUp => { b with wholeUp := b.wholeUp ++ [line] }
  | .wholeDown => { b with wholeDown := b.wholeDown ++ [line] }
  | .chordUp => { b with chordUp := b.chordUp ++ [line] }
  | .chordDown => { b with chordDown := b.chordDown ++ [line] }

def getBucket (k : BucketId) (b : Buckets) : List Line :=
  match k with
  | .tied => b.tied
  | .halfUp => b.halfUp
  | .halfDown => b.halfDown
  | .wholeUp => b.wholeUp
  | .wholeDown => b.wholeDown
  | .chordUp => b.chordUp
  | .chordDown => b.chordDown

/-- One iteration of the classifier's `lines.forEach`: the
disabled-library guard, the duplicate guard
(`!allowDuplicates && currentSequence.includes(line)`), then the
branch structure captured by `postBucket`. -/
def classifyStep (libraries : List Library) (currentSequence : List Line)
    (allowDuplicates : Bool) (endIdx : Int) (b : Buckets) (line : Line) : Buckets :=
  if !(isLibraryEnabled line.libraryId libraries) then b
  else if !allowDuplicates && currentSequence.contains line then b
  else
    match postBucket endIdx (degIdx line.start) with
    | some k => pushBucket k line b
    | none => b

/-- The post-selection classifier of `src/App.jsx` (a last line
exists): `endDeg` is `last.end?.degree` and
`endIdx = endDeg ? SCALE_ORDER.indexOf(endDeg) : -1`. -/
def classifyPost (endDeg : Option String) (lines : List Line)
    (currentSequence : List Line) (allowDuplicates : Bool)
    (libraries : List Library) : Buckets :=
  lines.foldl (classifyStep libraries currentSequence allowDuplicates (degIdx endDeg)) emptyBuckets

/-! ## First-selection classifier (`src/App.jsx`, no sequence yet or
Connect Anywhere active): group by start degree. -/

/-- Source: `line.start?.degree || 'unknown'`. -/
def firstKeyOf (line : Line) : String :=
  match line.start with
  | none => "unknown"
  | some s => if s = "" then "unknown" else s

/-- Source: `if (!groups[key]) groups[key] = []; groups[key].push(line)` on an
insertion-ordered association list. -/
def addToGroups : List (String × List Line) → String → Line → List (String × List Line)
  | [], key, line => [(key, [line])]
  | g :: gs, key, line =>
    if g.1 = key then (g.1, g.2 ++ [line]) :: gs
    else g :: addToGroups gs key line

/-- One iteration of the first-selection `lines.forEach`: the same two
exclusion guards, then grouping under the start-degree key. -/
def firstSelStep (libraries : List Library) (currentSequence : List Line)
    (allowDuplicates : Bool) (groups : List (String × List Line)) (line : Line) :
    List (String × List Line) :=
  if !(isLibraryEnabled line.libraryId libraries) then groups
  else if !allowDuplicates && currentSequence.contains line then groups
  else addToGroups groups (firstKeyOf line) line

/-- The first-selection classifier of `src/App.jsx`. -/
def classifyFirst (lines : List Line) (currentSequence : List Line)
    (allowDuplicates : Bool) (libraries : List Library) : List (String × List Line) :=
  lines.foldl (firstSelStep libraries currentSequence allowDuplicates) []

/-- The JS lookup `groups[key]`, as a list (empty when the key is absent). -/
def groupGet (key : String) (groups : List (String × List Line)) : List Line :=
  match groups.find? (fun g => g.1 = key) with
  | some g => g.2
  | none => []

/-! ## Function tagging (`src/App.jsx`, `categorizeByFunction`) -/

/-- Whether `needle` occurs as a contiguous run somewhere in `hay`. -/
def hasInfix (needle : List Char) : List Char → Bool
  | [] => needle.isEmpty
  | c :: rest => needle.isPrefixOf (c :: rest) || hasInfix needle rest

/-- JS `haystack.includes(needle)` (substring containment). -/
def jsIncludes (hay needle : String) : Bool :=
  hasInfix needle.toList hay.toList

/-- JS `String.prototype.toLowerCase`, characterwise. -/
def jsToLower (s : String) : String :=
  String.mk (s.toList.map Char.toLower)

/-- Source: `(line.tags || []).map(t => String(t).toLowerCase()).join(' ')`. -/
def tagStrOf (line : Line) : String :=
  String.intercalate " " (line.tags.map jsToLower)

/-- The nine function buckets. -/
inductive FuncId
  | majorIiV | minorIiV | staticMinor | dominant7 | alteredDominant
  | phrygianDominant | hwDiminished | tritoneSub | other
deriving DecidableEq, Repr

/-- Which function bucket `categorizeByFunction` pushes a line with
lower-cased joined tag text `t` into, transcribing the guard chain of
`src/App.jsx` in source order: ii-v (split minor/major), static
minor, altered dominant, dominant 7, phrygian dominant, H/W
diminished, tritone sub, other. -/
def funcBucketOf (t : String) : FuncId :=
  if jsIncludes t "ii-v" || jsIncludes t "i i-v" then
    (if jsIncludes t "minor" || jsIncludes t "min" then .minorIiV else .majorIiV)
  else if jsIncludes t "static" && jsIncludes t "minor" then .staticMinor
  else if jsIncludes t "altered" || jsIncludes t "#5" || jsIncludes t "v7#5" || jsIncludes t "g7alt" then
    .alteredDominant
  else if jsIncludes t "v7" || jsIncludes t "v 7" || jsIncludes t "dominant" then .dominant7
  else if jsIncludes t "phrygian" || jsIncludes t "b13" then .phrygianDominant
  else if jsIncludes t "h/w" || jsIncludes t "hw" || jsIncludes t "diminished" || jsIncludes t "13" || jsIncludes t "b9" then
    .hwDiminished
  else if jsIncludes t "tritone" then .tritoneSub
  else .other

structure FuncBuckets where
  majorIiV : List Line
  minorIiV : List Line
  staticMinor : List Line
  dominant7 : List Line
  alteredDominant : List Line
  phrygianDominant : List Line
  hwDiminished : List Line
  tritoneSub : List Line
  other : List Line
deriving DecidableEq, Repr

def emptyFuncBuckets : FuncBuckets :=
  ⟨[], [], [], [], [], [], [], [], []⟩

def pushFuncBucket (k : FuncId) (line : Line) (b : FuncBuckets) : FuncBuckets :=
  match k with
  | .majorIiV => { b with majorIiV := b.majorIiV ++ [line] }
  | .minorIiV => { b with minorIiV := b.minorIiV ++ [line] }
  | .staticMinor => { b with staticMinor := b.staticMinor ++ [line] }
  | .dominant7 => { b with dominant7 := b.dominant7 ++ [line] }
  | .alteredDominant => { b with alteredDominant := b.alteredDominant ++ [line] }
  | .phrygianDominant => { b with phrygianDominant := b.phrygianDominant ++ [line] }
  | .hwDiminished => { b with hwDiminished := b.hwDiminished ++ [line] }
  | .tritoneSub => { b with tritoneSub := b.tritoneSub ++ [line] }
  | .other => { b with other := b.other ++ [line] }

def getFuncBucket (k : FuncId) (b : FuncBuckets) : List Line :=
  match k with
  | .majorIiV => b.majorIiV
  | .minorIiV => b.minorIiV
  | .staticMinor => b.staticMinor
  | .dominant7 => b.dominant7
  | .alteredDominant => b.alteredDominant
  | .phrygianDominant => b.phrygianDominant
  | .hwDiminished => b.hwDiminished
  | .tritoneSub => b.tritoneSub
  | .other => b.other

/-- Source: `categorizeByFunction` from `src/App.jsx`: each line is pushed
into the bucket selected by its tag text. -/
def categorizeByFunction (linesList : List Line) : FuncBuckets :=
  linesList.foldl (fun b line => pushFuncBucket (funcBucketOf (tagStrOf line)) line b)
    emptyFuncBuckets

/-! ## Note model (`src/theory/noteParser.js` — `src/unnamed/part_004`) -/

structure Note where
  letter : Char
  accidental : String
  octave : Int
  midi : Int
deriving DecidableEq, Repr

/-- Source: `LETTER_TO_SEMITONE`: defined exactly on the keys `A`–`G`. -/
def LETTER_TO_SEMITONE (c : Char) : Option Int :=
  if c = 'C' then some 0
  else if c = 'D' then some 2
  else if c = 'E' then some 4
  else if c = 'F' then some 5
  else if c = 'G' then some 7
  else if c = 'A' then some 9
  else if c = 'B' then some 11
  else none

/-- Source: `parseNote` from the note parser: the input must match
`^([A-G])([#B]?)(\d)$`; `B` as accidental is normalized to flat;
`midi = (octave + 1) * 12 + semitone`. -/
def parseNote (noteStr : String) : Except String Note :=
  let err : Except String Note := .error ("Invalid note format: " ++ noteStr)
  match noteStr.toList with
  | [l, d] =>
    match LETTER_TO_SEMITONE l with
    | some base =>
      if d.isDigit then
        let octave : Int := (d.toNat - '0'.toNat : Nat)
        .ok { letter := l, accidental := "", octave := octave, midi := (octave + 1) * 12 + base }
      else err
    | none => err
  | [l, a, d] =>
    match LETTER_TO_SEMITONE l with
    | some base =>
      if (a = '#' || a = 'B') && d.isDigit then
        let accidental := if a = 'B' then "b" else "#"
        let octave : Int := (d.toNat - '0'.toNat : Nat)
        let semitone := base + (if accidental = "#" then 1 else if accidental = "b" then -1 else 0)
        .ok { letter := l, accidental := accidental, octave := octave, midi := (octave + 1) * 12 + semitone }
      else err
    | none => err
  | _ => err

/-- Source: `LETTER_TO_DEGREE` from `src/theory/degrees.js` (`src/unnamed/part_003`). -/
def LETTER_TO_DEGREE (c : Char) : Option Nat :=
  if c = 'C' then some 1
  else if c = 'D' then some 2
  else if c = 'E' then some 3
  else if c = 'F' then some 4
  else if c = 'G' then some 5
  else if c = 'A' then some 6
  else if c = 'B' then some 7

  else none

/-- Source: `noteToDegree` from `src/theory/degrees.js`: base degree from the
letter, prefixed by the accidental when present; throws on an unknown
letter. -/
def noteToDegree (note : Note) : Except String String :=
  match LETTER_TO_DEGREE note.letter with
  | none => .error ("Unknown note letter: " ++ note.letter.toString)
  | some baseDegree =>
    if note.accidental = "" then .ok (toString baseDegree)
    else .ok (note.accidental ++ toString baseDegree)

/-- Source: `notesToIntervals` from `src/theory/intervals.js`
(`src/unnamed/part_005`): consecutive MIDI differences. -/
def notesToIntervals (notes : List Note) : List Int :=
  if notes.length < 2 then []
  else (List.range (notes.length - 1)).map (fun i =>
    ((notes.get? (i + 1)).map Note.midi).getD 0 - ((notes.get? i).map Note.midi).getD 0)

/-- The line record built by `buildJazzLine`: `start`/`end` are the
first/last notes extended with their degree labels. -/
structure JLine where
  notes : List Note
  intervals : List Int
  startNote : Note
  startDegree : String
  endNote : Note
  endDegree : String
  length : Nat
  tripletStartIndex : Int
deriving DecidableEq, Repr

/-- Source: `buildJazzLine` from `src/theory/lineBuilder.js`: computes
intervals, start/end degrees via `noteToDegree`, and the triplet
default (`-1` with 9 notes becomes `6`, every other explicit value is
kept unclamped).  An empty note list or a degree failure makes the
call fail, as in JS it would throw. -/
def buildJazzLine (notes : List Note) (tripletStartIndex : Int) : Except String JLine :=
  let intervals := notesToIntervals notes
  match notes.head?, notes.getLast? with
  | some start, some last =>
    match noteToDegree start, noteToDegree last with
    | .ok startDeg, .ok endDeg =>
      let finalTripletIndex :=
        if tripletStartIndex = -1 && notes.length = 9 then 6 else tripletStartIndex
      .ok { notes := notes, intervals := intervals,
            startNote := start, startDegree := startDeg,
            endNote := last, endDegree := endDeg,
            length := notes.length, tripletStartIndex := finalTripletIndex }
    | .error e, _ => .error e
    | _, .error e => .error e
  | _, _ => .error "empty line"

/-! ## Derived definitions used in the statements -/

/-- A line occurs in at least one of the seven surfaced buckets. -/
def memAnyBucket (line : Line) (b : Buckets) : Bool :=
  b.tied.contains line || b.halfUp.contains line || b.halfDown.contains line ||
    b.wholeUp.contains line || b.wholeDown.contains line ||
    b.chordUp.contains line || b.chordDown.contains line

/-- The function-tagging rules of `categorizeByFunction` as an ordered
decision list, in the source's order: minor/major ii-v, static minor,
altered dominant, dominant 7, phrygian dominant, H/W diminished,
tritone sub (with Other as fallback). -/
def funcRules : List (FuncId × (String → Bool)) :=
  [ (.minorIiV, fun t => (jsIncludes t "ii-v" || jsIncludes t "i i-v") &&
      (jsIncludes t "minor" || jsIncludes t "min")),
    (.majorIiV, fun t => jsIncludes t "ii-v" || jsIncludes t "i i-v"),
    (.staticMinor, fun t => jsIncludes t "static" && jsIncludes t "minor"),
    (.alteredDominant, fun t => jsIncludes t "altered" || jsIncludes t "#5" ||
      jsIncludes t "v7#5" || jsIncludes t "g7alt"),
    (.dominant7, fun t => jsIncludes t "v7" || jsIncludes t "v 7" || jsIncludes t "dominant"),
    (.phrygianDominant, fun t => jsIncludes t "phrygian" || jsIncludes t "b13"),
    (.hwDiminished, fun t => jsIncludes t "h/w" || jsIncludes t "hw" ||
      jsIncludes t "diminished" || jsIncludes t "13" || jsIncludes t "b9"),
    (.tritoneSub, fun t => jsIncludes t "tritone") ]

/-- First matching rule wins; no match falls to Other. -/
def firstMatchFunc (t : String) : FuncId :=
  match funcRules.find? (fun r => r.2 t) with
  | some r => r.1
  | none => .other

/-- Modelled from the spec: the decision list in the ORDER the claim
states it (ii-V major/minor, static minor, dominant 7, altered
dominant, phrygian dominant, half/whole diminished, tritone sub,
other) — the rules themselves are those of the source. -/
def specFuncRules : List (FuncId × (String → Bool)) :=
  [ (.minorIiV, fun t => (jsIncludes t "ii-v" || jsIncludes t "i i-v") &&
      (jsIncludes t "minor" || jsIncludes t "min")),
    (.majorIiV, fun t => jsIncludes t "ii-v" || jsIncludes t "i i-v"),
    (.staticMinor, fun t => jsIncludes t "static" && jsIncludes t "minor"),
    (.dominant7, fun t => jsIncludes t "v7" || jsIncludes t "v 7" || jsIncludes t "dominant"),
    (.alteredDominant, fun t => jsIncludes t "altered" || jsIncludes t "#5" ||
      jsIncludes t "v7#5" || jsIncludes t "g7alt"),
    (.phrygianDominant, fun t => jsIncludes t "phrygian" || jsIncludes t "b13"),
    (.hwDiminished, fun t => jsIncludes t "h/w" || jsIncludes t "hw" ||
      jsIncludes t "diminished" || jsIncludes t "13" || jsIncludes t "b9"),
    (.tritoneSub, fun t => jsIncludes t "tritone") ]

/-- First match over the claim's rule order. -/
def specFirstMatchFunc (t : String) : FuncId :=
  match specFuncRules.find? (fun r => r.2 t) with
  | some r => r.1
  | none => .other

/-- One letter `A`–`G` (the character class `[A-G]`). -/
def isNoteLetter (c : Char) : Bool :=
  c = 'A' || c = 'B' || c = 'C' || c = 'D' || c = 'E' || c = 'F' || c = 'G'

/-- The note grammar of the spec: one letter A–G, an optional single
accidental marker (`#` for sharp, `B` for flat), one decimal octave
digit — the pattern `^([A-G])([#B]?)(\d)$`. -/
def matchesNotePattern (s : String) : Bool :=
  match s.toList with
  | [l, d] => isNoteLetter l && d.isDigit
  | [l, a, d] => isNoteLetter l && (a = '#' || a = 'B') && d.isDigit
  | _ => false

/-- The spec's `base_semitone` table for letters A–G. -/
def baseSemitone (c : Char) : Int :=
  if c = 'C' then 0
  else if c = 'D' then 2
  else if c = 'E' then 4
  else if c = 'F' then 5
  else if c = 'G' then 7
  else if c = 'A' then 9
  else if c = 'B' then 11
  else 0

/-- A plain middle-C note value. -/
def cnote : Note :=
  { letter := 'C', accidental := "", octave := 4, midi := 60 }

/-- The note `parseNote "C#4"` produces. -/
def c8note : Note :=
  { letter := 'C', accidental := "#", octave := 4, midi := 61 }

/-- The line `buildJazzLine` produces from nine copies of `cnote`
with the default triplet index. -/
def c7line : JLine :=
  { notes := List.replicate 9 cnote,
    intervals := [0, 0, 0, 0, 0, 0, 0, 0],
    startNote := cnote, startDegree := "1",
    endNote := cnote, endDegree := "1",
    length := 9, tripletStartIndex := 6 }

/-! ## Characterization lemmas for the classifiers -/

/-- The two exclusion guards shared by both classifier modes. -/
def included (libraries : List Library) (currentSequence : List Line)
    (allowDuplicates : Bool) (line : Line) : Bool :=
  isLibraryEnabled line.libraryId libraries &&
    (allowDuplicates || !(currentSequence.contains line))

/-- A line passes the guards and is assigned to bucket `k`. -/
def passesTo (libraries : List Library) (currentSequence : List Line)
    (allowDuplicates : Bool) (endIdx : Int) (k : BucketId) (line : Line) : Bool :=
  included libraries currentSequence allowDuplicates line &&
    decide (postBucket endIdx (degIdx line.start) = some k)

theorem getBucket_pushBucket (k k' : BucketId) (x : Line) (b : Buckets) :
    getBucket k (pushBucket k' x b) =
      if k = k' then getBucket k b ++ [x] else getBucket k b := by
  cases k <;> cases k' <;> simp [getBucket, pushBucket]

theorem getBucket_classifyStep (libraries : List Library) (currentSequence : List Line)
    (allowDuplicates : Bool) (endIdx : Int) (b : Buckets) (line : Line) (k : BucketId) :
    getBucket k (classifyStep libraries currentSequence allowDuplicates endIdx b line) =
      getBucket k b ++
        (if passesTo libraries currentSequence allowDuplicates endIdx k line
          then [line] else []) := by
  unfold classifyStep passesTo included
  cases hLib : isLibraryEnabled line.libraryId libraries
  · simp [hLib]
  · cases hDup : currentSequence.contains line
    · cases hpb : postBucket endIdx (degIdx line.start)
      · simp [hLib, hDup, hpb]
      · rename_i k'
        by_cases hk : k = k'
        · simp [hLib, hDup, hpb, getBucket_pushBucket, hk]
        · have hk' : ¬ k' = k := fun h => hk h.symm
          simp [hLib, hDup, hpb, getBucket_pushBucket, hk, hk']
    · cases allowDuplicates
      · simp [hLib, hDup]
      · cases hpb : postBucket endIdx (degIdx line.start)
        · simp [hLib, hDup, hpb]
        · rename_i k'
          by_cases hk : k = k'
          · simp [hLib, hDup, hpb, getBucket_pushBucket, hk]
          · have hk' : ¬ k' = k := fun h => hk h.symm
            simp [hLib, hDup, hpb, getBucket_pushBucket, hk, hk']

theorem getBucket_foldl_classifyStep (libraries : List Library)
    (currentSequence : List Line) (allowDuplicates : Bool) (endIdx : Int)
    (k : BucketId) :
    ∀ (lines : List Line) (b : Buckets),
      getBucket k
          (lines.foldl (classifyStep libraries currentSequence allowDuplicates endIdx) b) =
        getBucket k b ++
          lines.filter (passesTo libraries currentSequence allowDuplicates endIdx k) := by
  intro lines
  induction lines with
  | nil => intro b; simp
  | cons l ls ih =>
    intro b
    rw [List.foldl_cons, ih, getBucket_classifyStep]
    cases h : passesTo libraries currentSequence allowDuplicates endIdx k l <;>
      simp [List.filter_cons, h, List.append_assoc]

/-- A line is in bucket `k` of the post-selection classifier exactly
when it is a candidate, passes both guards, and the branch logic
assigns it bucket `k`. -/
theorem mem_getBucket_classifyPost (endDeg : Option String) (lines : List Line)
    (currentSequence : List Line) (allowDuplicates : Bool) (libraries : List Library)
    (line : Line) (k : BucketId) :
    line ∈ getBucket k (classifyPost endDeg lines currentSequence allowDuplicates libraries) ↔
      line ∈ lines ∧
        included libraries currentSequence allowDuplicates line = true ∧
        postBucket (degIdx endDeg) (degIdx line.start) = some k := by
  unfold classifyPost
  rw [getBucket_foldl_classifyStep]
  simp [emptyBuckets, List.mem_filter, passesTo, getBucket, and_assoc]
  cases k <;> simp [getBucket]

theorem groupGet_nil (key : String) : groupGet key [] = [] := by
  simp [groupGet, List.find?]

theorem groupGet_cons (key gk : String) (gl : List Line)
    (gs : List (String × List Line)) :
    groupGet key ((gk, gl) :: gs) = if gk = key then gl else groupGet key gs := by
  by_cases h : gk = key <;> simp [groupGet, List.find?, h]

theorem addToGroups_cons (key' gk : String) (gl : List Line) (l : Line)
    (gs : List (String × List Line)) :
    addToGroups ((gk, gl) :: gs) key' l =
      if gk = key' then (gk, gl ++ [l]) :: gs
      else (gk, gl) :: addToGroups gs key' l := by
  by_cases h : gk = key' <;> simp [addToGroups, h]

theorem groupGet_addToGroups (key key' : String) (l : Line) :
    ∀ (groups : List (String × List Line)),
      groupGet key (addToGroups groups key' l) =
        if key = key' then groupGet key groups ++ [l] else groupGet key groups := by
  intro groups
  induction groups with
  | nil =>
    by_cases h : key = key'
    · simp [addToGroups, groupGet_cons, groupGet_nil, h]
    · have h' : ¬ key' = key := fun hc => h hc.symm
      simp [addToGroups, groupGet_cons, groupGet_nil, h, h']
  | cons g gs ih =>
    rcases g with ⟨gk, gl⟩
    rw [addToGroups_cons]
    by_cases hg : gk = key'
    · rw [if_pos hg]
      simp only [groupGet_cons]
      by_cases hk : gk = key
      · have hkk : key = key' := hk.symm.trans hg
        simp [hk, hkk]
      · have hkk : ¬ key = key' := fun hc => hk (hg.trans hc.symm)
        simp [hk, hkk]
    · rw [if_neg hg]
      simp only [groupGet_cons, ih]
      by_cases hk : gk = key
      · have hkk : ¬ key = key' := fun hc => hg (hk.trans hc)
        simp [hk, hkk]
      · by_cases hkk : key = key' <;> simp [hk, hkk, hg]

theorem groupGet_firstSelStep (libraries : List Library) (currentSequence : List Line)
    (allowDuplicates : Bool) (groups : List (String × List Line)) (line : Line)
    (key : String) :
    groupGet key (firstSelStep libraries currentSequence allowDuplicates groups line) =
      groupGet key groups ++
        (if included libraries currentSequence allowDuplicates line = true ∧
            firstKeyOf line = key
          then [line] else []) := by
  unfold firstSelStep included
  cases hLib : isLibraryEnabled line.libraryId libraries
  · simp [hLib]
  · cases hDup : currentSequence.contains line
    · by_cases hk : key = firstKeyOf line
      · simp [hLib, hDup, groupGet_addToGroups, hk]
      · have hk' : ¬ firstKeyOf line = key := fun h => hk h.symm
        simp [hLib, hDup, groupGet_addToGroups, hk, hk']
    · cases allowDuplicates
      · simp [hLib, hDup]
      · by_cases hk : key = firstKeyOf line
        · simp [hLib, hDup, groupGet_addToGroups, hk]
        · have hk' : ¬ firstKeyOf line = key := fun h => hk h.symm
          simp [hLib, hDup, groupGet_addToGroups, hk, hk']

theorem groupGet_foldl_firstSelStep (libraries : List Library)
    (currentSequence : List Line) (allowDuplicates : Bool) (key : String) :
    ∀ (lines : List Line) (groups : List (String × List Line)),
      groupGet key
          (lines.foldl (firstSelStep libraries currentSequence allowDuplicates) groups) =
        groupGet key groups ++
          lines.filter (fun l =>
            included libraries currentSequence allowDuplicates l &&
              decide (firstKeyOf l = key)) := by
  intro lines
  induction lines with
  | nil => intro groups; simp
  | cons l ls ih =>
    intro groups
    rw [List.foldl_cons, ih, groupGet_firstSelStep]
    by_cases h1 : included libraries currentSequence allowDuplicates l = true
    · by_cases h2 : firstKeyOf l = key
      · simp [List.filter_cons, h1, h2, List.append_assoc]
      · simp [List.filter_cons, h1, h2]
    · rw [Bool.not_eq_true] at h1
      simp [List.filter_cons, h1]

/-- A line is in group `key` of the first-selection classifier exactly
when it is a candidate, passes both guards, and `key` is its start
degree key. -/
theorem mem_groupGet_classifyFirst (lines : List Line) (currentSequence : List Line)
    (allowDuplicates : Bool) (libraries : List Library) (line : Line) (key : String) :
    line ∈ groupGet key (classifyFirst lines currentSequence allowDuplicates libraries) ↔
      line ∈ lines ∧
        included libraries currentSequence allowDuplicates line = true ∧
        firstKeyOf line = key := by
  unfold classifyFirst
  rw [groupGet_foldl_firstSelStep]
  simp [groupGet, List.mem_filter, and_assoc]

theorem getFuncBucket_pushFuncBucket (k k' : FuncId) (x : Line) (b : FuncBuckets) :
    getFuncBucket k (pushFuncBucket k' x b) =
      if k = k' then getFuncBucket k b ++ [x] else getFuncBucket k b := by
  cases k <;> cases k' <;> simp [getFuncBucket, pushFuncBucket]

theorem getFuncBucket_foldl (k : FuncId) :
    ∀ (lines : List Line) (b : FuncBuckets),
      getFuncBucket k
          (lines.foldl (fun b line => pushFuncBucket (funcBucketOf (tagStrOf line)) line b) b) =
        getFuncBucket k b ++
          lines.filter (fun l => decide (funcBucketOf (tagStrOf l) = k)) := by
  intro lines
  induction lines with
  | nil => intro b; simp
  | cons l ls ih =>
    intro b
    rw [List.foldl_cons, ih, getFuncBucket_pushFuncBucket]
    by_cases h : funcBucketOf (tagStrOf l) = k
    · simp [List.filter_cons, h]
    · simp [List.filter_cons, h, Ne.symm h]

/-- Each function bucket of `categorizeByFunction` is exactly the list
of input lines whose tag text selects it, in input order. -/
theorem getFuncBucket_categorizeByFunction (k : FuncId) (lines : List Line) :
    getFuncBucket k (categorizeByFunction lines) =
      lines.filter (fun l => decide (funcBucketOf (tagStrOf l) = k)) := by
  unfold categorizeByFunction
  rw [getFuncBucket_foldl]
  cases k <;> simp [getFuncBucket, emptyFuncBuckets]

/-- With no libraries registered, every line passes the library guard. -/
theorem isLibraryEnabled_nil (libraryId : Option String) :
    isLibraryEnabled libraryId [] = true := by
  cases libraryId <;> simp [isLibraryEnabled, List.find?]

/-- The function `canConnect` reads only the end degree of its first argument and
the start degree of its second. -/
theorem canConnect_some_some (la lb : Line) :
    canConnect (some la) (some lb) =
      canConnect (some (mkLine 0 none la.endDeg)) (some (mkLine 0 lb.start none)) := rfl

/-- The exclusion guards in `Prop` form. -/
theorem included_iff (libraries : List Library) (currentSequence : List Line)
    (allowDuplicates : Bool) (line : Line) :
    included libraries currentSequence allowDuplicates line = true ↔
      (isLibraryEnabled line.libraryId libraries = true ∧
        (allowDuplicates = true ∨ line ∉ currentSequence)) := by
  cases allowDuplicates <;>
    simp [included, List.contains]

/-- The decision chain of `categorizeByFunction` agrees with
first-match over the ordered rule list `funcRules`. -/
theorem funcBucketOf_eq_firstMatchFunc (t : String) :
    funcBucketOf t = firstMatchFunc t := by
  unfold funcBucketOf firstMatchFunc funcRules
  cases hA : (jsIncludes t "ii-v" || jsIncludes t "i i-v") <;>
    cases hM : (jsIncludes t "minor" || jsIncludes t "min") <;>
      cases hS : (jsIncludes t "static" && jsIncludes t "minor") <;>
        cases hAL : (jsIncludes t "altered" || jsIncludes t "#5" ||
            jsIncludes t "v7#5" || jsIncludes t "g7alt") <;>
          cases hD : (jsIncludes t "v7" || jsIncludes t "v 7" || jsIncludes t "dominant") <;>
            cases hP : (jsIncludes t "phrygian" || jsIncludes t "b13") <;>
              cases hH : (jsIncludes t "h/w" || jsIncludes t "hw" ||
                  jsIncludes t "diminished" || jsIncludes t "13" || jsIncludes t "b9") <;>
                cases hT : (jsIncludes t "tritone") <;>
                  simp [List.find?, hA, hM, hS, hAL, hD, hP, hH, hT]

/-- The note-parser letter table is defined exactly on the letters
`A`–`G`. -/
theorem LETTER_TO_SEMITONE_isSome (c : Char) :
    (LETTER_TO_SEMITONE c).isSome = isNoteLetter c := by
  unfold LETTER_TO_SEMITONE isNoteLetter
  split_ifs <;> simp_all

/-- The parser's letter base agrees with the spec's
`base_semitone` table wherever the letter is accepted. -/
theorem baseSemitone_of_letter (c : Char) (b : Int)
    (h : LETTER_TO_SEMITONE c = some b) : baseSemitone c = b := by
  unfold LETTER_TO_SEMITONE at h
  unfold baseSemitone
  split_ifs at h <;> simp_all

/-- A found index is within the searched segment. -/
theorem findIdx?_some_lt {α : Type} (p : α → Bool) :
    ∀ (l : List α) (i j : Nat), l.findIdx? p i = some j → i ≤ j ∧ j < i + l.length := by
  intro l
  induction l with
  | nil => intro i j h; simp [List.findIdx?_nil] at h
  | cons x xs ih =>
    intro i j h
    rw [List.findIdx?_cons] at h
    by_cases hp : p x = true
    · rw [if_pos hp] at h
      cases h
      refine ⟨Nat.le_refl _, ?_⟩
      simp only [List.length_cons]
      omega
    · rw [if_neg hp] at h
      have hb := ih (i + 1) j h
      refine ⟨by omega, ?_⟩
      simp only [List.length_cons]
      omega

/-- The value of `SCALE_ORDER.indexOf` is `-1` or a position `0 ≤ i < 12`. -/
theorem scaleIndexOf_neg_or_range (s : String) :
    scaleIndexOf s = -1 ∨ (0 ≤ scaleIndexOf s ∧ scaleIndexOf s < 12) := by
  unfold scaleIndexOf
  rcases h : SCALE_ORDER.findIdx? (fun t => t = s) with _ | i
  · simp [h]
  · simp only [h]
    right
    have hb := findIdx?_some_lt _ SCALE_ORDER 0 i h
    have hlen : SCALE_ORDER.length = 12 := rfl
    rw [hlen] at hb
    refine ⟨Int.ofNat_nonneg i, ?_⟩
    have hi : i < 12 := by omega
    exact_mod_cast hi

/-- The value of `degIdx` is `-1` or a position `0 ≤ i < 12`. -/
theorem degIdx_neg_or_range (deg : Option String) :
    degIdx deg = -1 ∨ (0 ≤ degIdx deg ∧ degIdx deg < 12) := by
  match deg with
  | none => exact Or.inl rfl
  | some s =>
    by_cases h : s = ""
    · exact Or.inl (by simp [degIdx, h])
    · have := scaleIndexOf_neg_or_range s
      simp [degIdx, h]
      exact this

/-! ## Claims -/

/-- C1 (counterexample): a candidate whose start degree does not
resolve (`SCALE_ORDER.indexOf` gives `-1`) is NOT dropped for every
end degree: when the end degree itself fails to resolve, both indices
are `-1`, the tied check (`startIdx === endIdx`) fires before the
`-1` guard, and the candidate lands in the Tied bucket. -/
theorem C1_counterexample :
    degIdx (some "zz") = -1 ∧ degIdx (some "X") = -1 ∧
      mkLine 1 (some "X") none ∈
        (classifyPost (some "zz") [mkLine 1 (some "X") none]
          [mkLine 0 none (some "zz")] false []).tied := by
  decide

/-- C1 (amended): a candidate whose start degree does not resolve to
an index in the canonical order is silently dropped — it appears in
none of the seven buckets — for every library of candidates and every
end degree of the last line THAT ITSELF RESOLVES to a valid index;
when the end degree also fails to resolve, such a candidate is
instead bucketed Tied. -/
theorem C1_amended (endDeg : Option String) (lines currentSequence : List Line)
    (allowDuplicates : Bool) (libraries : List Library) (line : Line)
    (hs : degIdx line.start = -1) (he : degIdx endDeg ≠ -1) (k : BucketId) :
    line ∉ getBucket k
      (classifyPost endDeg lines currentSequence allowDuplicates libraries) := by
  rw [mem_getBucket_classifyPost]
  rintro ⟨-, -, hpb⟩
  rw [hs] at hpb
  have he' : ¬ ((-1 : Int) = degIdx endDeg) := fun hc => he hc.symm
  simp [postBucket, he'] at hpb

/-- Witness for C1 (amended) at a concrete input. -/
theorem C1_witness :
    degIdx (some "X") = -1 ∧ degIdx (some "1") ≠ -1 ∧
      mkLine 1 (some "X") none ∉ getBucket .tied
        (classifyPost (some "1") [mkLine 1 (some "X") none] [] true []) :=
  ⟨by decide, by decide,
    C1_amended (some "1") [mkLine 1 (some "X") none] [] true []
      (mkLine 1 (some "X") none) (by decide) (by decide) .tied⟩

/-- C4 (confirmed): with a last line ending on degree `"5"`
(index 7), a candidate starting on `"b6"` (index 8) is bucketed
Half-step up, one starting on `"4"` (index 5) is bucketed Whole-step
down, and one starting on `"1"` (index 0) is dropped, the nearest
chord tone above index 7 being index 11 and the nearest below being
index 4, neither of which is 0. -/
theorem C4_example :
    scaleIndexOf "5" = 7 ∧ scaleIndexOf "b6" = 8 ∧
      scaleIndexOf "4" = 5 ∧ scaleIndexOf "1" = 0 ∧
      nearestChordToneAboveIndex 7 = some 11 ∧
      nearestChordToneBelowIndex 7 = some 4 ∧
      (classifyPost (some "5")
          [mkLine 1 (some "b6") none, mkLine 2 (some "4") none, mkLine 3 (some "1") none]
          [] true []).halfUp = [mkLine 1 (some "b6") none] ∧
      (classifyPost (some "5")
          [mkLine 1 (some "b6") none, mkLine 2 (some "4") none, mkLine 3 (some "1") none]
          [] true []).wholeDown = [mkLine 2 (some "4") none] ∧
      memAnyBucket (mkLine 3 (some "1") none)
        (classifyPost (some "5")
          [mkLine 1 (some "b6") none, mkLine 2 (some "4") none, mkLine 3 (some "1") none]
          [] true []) = false := by
  decide

/-- C9 (confirmed): the canonical 12-element degree sequence is in
semitone order — for every index `i`, `degreeToSemitone` on
`SCALE_ORDER[i]` recomputes exactly `i`, and index lookup agrees. -/
theorem C9_scale_order_is_semitone_order :
    ∀ i : Fin 12,
      degreeToSemitone (some (SCALE_ORDER.getD i.val "")) = some (i.val : Int) ∧
        scaleIndexOf (SCALE_ORDER.getD i.val "") = (i.val : Int) := by
  decide

/-- C10 (confirmed): `canConnect` is total — it always returns a
boolean — and returns `false` whenever either the end degree of the
first line or the start degree of the second fails to resolve to a
semitone (including missing lines and missing fields). -/
theorem C10_canConnect_total (a b : Option Line) :
    (canConnect a b = true ∨ canConnect a b = false) ∧
      ((degreeToSemitone (a.bind Line.endDeg) = none ∨
          degreeToSemitone (b.bind Line.start) = none) →
        canConnect a b = false) := by
  constructor
  · cases h : canConnect a b
    · exact Or.inr rfl
    · exact Or.inl rfl
  · intro h
    unfold canConnect
    rcases h with h | h
    · simp [h]
    · cases h1 : degreeToSemitone (a.bind Line.endDeg) <;> simp [h, h1]

/-- Witness for C10 at the null/null input. -/
theorem C10_witness : canConnect none none = false :=
  (C10_canConnect_total none none).2 (Or.inl rfl)

/-- C2 (counterexample): `canConnect` is NOT the predicate form of
"lands in one of the seven surfaced buckets": a tied candidate (same
degree `"1"`) is surfaced in the Tied bucket while `canConnect`
returns `false`; and for an end degree `"#1"` that `degreeToSemitone`
resolves but `SCALE_ORDER.indexOf` does not, `canConnect` returns
`true` while the classifier surfaces the candidate in no bucket. -/
theorem C2_counterexample :
    (canConnect (some (mkLine 0 none (some "1"))) (some (mkLine 1 (some "1") none)) = false ∧
      mkLine 1 (some "1") none ∈
        (classifyPost (some "1") [mkLine 1 (some "1") none] [] true []).tied) ∧
    (canConnect (some (mkLine 0 none (some "#1"))) (some (mkLine 1 (some "2") none)) = true ∧
      memAnyBucket (mkLine 1 (some "2") none)
        (classifyPost (some "#1") [mkLine 1 (some "2") none] [] true []) = false) := by
  decide

/-- C2 (amended): for lines whose end/start degrees are canonical
`SCALE_ORDER` labels, `canConnect lineA lineB` returns `true` exactly
when the post-selection classifier, invoked with `lineA`'s end degree
as the last degree, would place `lineB` into one of the SIX step and
chord-tone buckets — the Tied bucket is surfaced by the classifier
but rejected by `canConnect`. -/
theorem C2_amended (i j : Fin 12) (la lb : Line)
    (he : la.endDeg = some (SCALE_ORDER.getD i.val ""))
    (hs : lb.start = some (SCALE_ORDER.getD j.val "")) :
    canConnect (some la) (some lb) = true ↔
      ∃ k, k ≠ BucketId.tied ∧
        lb ∈ getBucket k (classifyPost la.endDeg [lb] [] true []) := by
  have hmem : ∀ k, (lb ∈ getBucket k (classifyPost la.endDeg [lb] [] true [])) ↔
      postBucket (degIdx la.endDeg) (degIdx lb.start) = some k := by
    intro k
    rw [mem_getBucket_classifyPost]
    simp [included, isLibraryEnabled_nil]
  simp only [hmem]
  rw [canConnect_some_some, he, hs]
  clear hmem he hs
  revert i j
  decide

/-- Witness for C2 (amended) at end degree `"5"`, start degree `"b6"`. -/
theorem C2_witness :
    canConnect (some (mkLine 0 none (some "5"))) (some (mkLine 1 (some "b6") none)) = true ↔
      ∃ k, k ≠ BucketId.tied ∧
        mkLine 1 (some "b6") none ∈ getBucket k
          (classifyPost (mkLine 0 none (some "5")).endDeg
            [mkLine 1 (some "b6") none] [] true []) :=
  C2_amended 7 8 (mkLine 0 none (some "5")) (mkLine 1 (some "b6") none)
    (by decide) (by decide)

/-- C3 (counterexample): exclusion from the output is NOT exactly the
disabled-library/duplicate rule: in post-selection mode a candidate
from an enabled library that is not in the sequence (start degree
`"b5"`, end degree `"1"`) still appears in no bucket, because its
start index matches neither a step distance nor a nearest chord
tone. -/
theorem C3_counterexample :
    isLibraryEnabled (mkLine 1 (some "b5") none).libraryId [] = true ∧
      mkLine 1 (some "b5") none ∉ [mkLine 0 none (some "1")] ∧
      memAnyBucket (mkLine 1 (some "b5") none)
        (classifyPost (some "1") [mkLine 1 (some "b5") none]
          [mkLine 0 none (some "1")] false []) = false := by
  decide

/-- C3 (amended): a candidate in a disabled Library, or — with
`allowDuplicates` false — already in the sequence by identity, is
excluded in both classifier modes; in first-selection mode this is
exactly the exclusion condition, while in post-selection mode a
guard-passing candidate may additionally be dropped by the degree
rules; flipping `allowDuplicates` false→true re-includes an
already-selected candidate (in post-selection mode, exactly when the
branch logic assigns it a bucket), and candidates not in the sequence
are unaffected by the flip. -/
theorem C3_amended (endDeg : Option String) (lines seq : List Line)
    (allowDup : Bool) (libs : List Library) (line : Line) :
    ((isLibraryEnabled line.libraryId libs = false ∨ (allowDup = false ∧ line ∈ seq)) →
      (∀ k, line ∉ getBucket k (classifyPost endDeg lines seq allowDup libs)) ∧
      (∀ key, line ∉ groupGet key (classifyFirst lines seq allowDup libs)))
    ∧
    (line ∈ groupGet (firstKeyOf line) (classifyFirst lines seq allowDup libs) ↔
      (line ∈ lines ∧ isLibraryEnabled line.libraryId libs = true ∧
        (allowDup = true ∨ line ∉ seq)))
    ∧
    (line ∈ lines → isLibraryEnabled line.libraryId libs = true → line ∈ seq →
      (line ∉ groupGet (firstKeyOf line) (classifyFirst lines seq false libs) ∧
        line ∈ groupGet (firstKeyOf line) (classifyFirst lines seq true libs)) ∧
      ((∀ k, line ∉ getBucket k (classifyPost endDeg lines seq false libs)) ∧
        (∀ k, line ∈ getBucket k (classifyPost endDeg lines seq true libs) ↔
          postBucket (degIdx endDeg) (degIdx line.start) = some k)))
    ∧
    (line ∉ seq →
      (∀ k, (line ∈ getBucket k (classifyPost endDeg lines seq false libs) ↔
        line ∈ getBucket k (classifyPost endDeg lines seq true libs))) ∧
      (∀ key, (line ∈ groupGet key (classifyFirst lines seq false libs) ↔
        line ∈ groupGet key (classifyFirst lines seq true libs)))) := by
  have hexc : ∀ ad : Bool,
      (isLibraryEnabled line.libraryId libs = false ∨ (ad = false ∧ line ∈ seq)) →
      ¬ (included libs seq ad line = true) := by
    intro ad h hinc
    rw [included_iff] at hinc
    rcases h with h | ⟨h1, h2⟩
    · rw [h] at hinc
      exact Bool.false_ne_true hinc.1
    · rcases hinc.2 with h3 | h3
      · rw [h1] at h3
        exact Bool.false_ne_true h3
      · exact h3 h2
  refine ⟨?_, ?_, ?_, ?_⟩
  · intro h
    constructor
    · intro k hk
      rw [mem_getBucket_classifyPost] at hk
      exact hexc allowDup h hk.2.1
    · intro key hk
      rw [mem_groupGet_classifyFirst] at hk
      exact hexc allowDup h hk.2.1
  · simp [mem_groupGet_classifyFirst, included_iff, and_assoc]
  · intro hm hl hs
    refine ⟨⟨?_, ?_⟩, ?_, ?_⟩
    · intro hk
      rw [mem_groupGet_classifyFirst] at hk
      exact hexc false (Or.inr ⟨rfl, hs⟩) hk.2.1
    · rw [mem_groupGet_classifyFirst, included_iff]
      exact ⟨hm, ⟨hl, Or.inl rfl⟩, rfl⟩
    · intro k hk
      rw [mem_getBucket_classifyPost] at hk
      exact hexc false (Or.inr ⟨rfl, hs⟩) hk.2.1
    · intro k
      rw [mem_getBucket_classifyPost, included_iff]
      constructor
      · rintro ⟨-, -, hpb⟩
        exact hpb
      · intro hpb
        exact ⟨hm, ⟨hl, Or.inl rfl⟩, hpb⟩
  · intro hns
    constructor
    · intro k
      rw [mem_getBucket_classifyPost, mem_getBucket_classifyPost,
        included_iff, included_iff]
      simp [hns]
    · intro key
      rw [mem_groupGet_classifyFirst, mem_groupGet_classifyFirst,
        included_iff, included_iff]
      simp [hns]

/-- Witness for C3 (amended): flipping `allowDuplicates` false→true
re-includes the one already-selected line in first-selection mode. -/
theorem C3_witness :
    mkLine 1 (some "1") (some "1") ∉
      groupGet (firstKeyOf (mkLine 1 (some "1") (some "1")))
        (classifyFirst [mkLine 1 (some "1") (some "1")]
          [mkLine 1 (some "1") (some "1")] false []) ∧
    mkLine 1 (some "1") (some "1") ∈
      groupGet (firstKeyOf (mkLine 1 (some "1") (some "1")))
        (classifyFirst [mkLine 1 (some "1") (some "1")]
          [mkLine 1 (some "1") (some "1")] true []) :=
  ((C3_amended (some "1") [mkLine 1 (some "1") (some "1")]
      [mkLine 1 (some "1") (some "1")] false [] (mkLine 1 (some "1") (some "1"))).2.2.1
    (by decide) (by decide) (by decide)).1

/-- C5 (counterexample): the partition disjunction is NOT exhaustive
for every reachable input: `noteToDegree` produces sharp-spelled
labels such as `"#4"` (a line ending on F#) that are not in
`SCALE_ORDER`, so post-selection mode can run with `endIdx = -1`;
a guard-passing candidate starting on `"b2"` (index 1) is then
dropped by the `-1` guard although `circularDistance(-1, 1) = 2`,
i.e. not by the chromDist>2-and-no-chord-tone-match rule. -/
theorem C5_counterexample :
    noteToDegree { letter := 'F', accidental := "#", octave := 4, midi := 66 } =
        .ok "#4" ∧
      degIdx (some "#4") = -1 ∧ degIdx (some "b2") = 1 ∧
      isLibraryEnabled (mkLine 1 (some "b2") none).libraryId [] = true ∧
      mkLine 1 (some "b2") none ∉ [mkLine 0 none (some "#4")] ∧
      memAnyBucket (mkLine 1 (some "b2") none)
        (classifyPost (some "#4") [mkLine 1 (some "b2") none]
          [mkLine 0 none (some "#4")] false []) = false ∧
      circularDistance (degIdx (some "#4")) (degIdx (some "b2")) = 2 := by
  refine ⟨rfl, ?_⟩
  decide

/-- C5 (amended): whenever the last line's end degree resolves to a
valid index, post-selection classification partitions the
non-excluded candidates — every guard-passing candidate whose start
degree resolves either lands in exactly one of the seven buckets, or
is dropped with `chromDist > 2` and a start index matching neither
the nearest chord tone above nor below; no candidate is ever in two
buckets.  When the end degree does not resolve, a start-resolvable
candidate is instead dropped by the `-1` guard regardless of
distance. -/
theorem C5_partition (endDeg : Option String) (lines seq : List Line)
    (allowDup : Bool) (libs : List Library) (line : Line)
    (hmem : line ∈ lines)
    (hlib : isLibraryEnabled line.libraryId libs = true)
    (hdup : allowDup = true ∨ line ∉ seq)
    (hs : degIdx line.start ≠ -1) (he : degIdx endDeg ≠ -1) :
    (∃ k, line ∈ getBucket k (classifyPost endDeg lines seq allowDup libs) ∧
        ∀ k', k' ≠ k →
          line ∉ getBucket k' (classifyPost endDeg lines seq allowDup libs)) ∨
      (circularDistance (degIdx endDeg) (degIdx line.start) > 2 ∧
        nearestChordToneAboveIndex (degIdx endDeg) ≠ some (degIdx line.start) ∧
        nearestChordToneBelowIndex (degIdx endDeg) ≠ some (degIdx line.start) ∧
        ∀ k, line ∉ getBucket k (classifyPost endDeg lines seq allowDup libs)) := by
  have hinc : included libs seq allowDup line = true :=
    (included_iff _ _ _ _).mpr ⟨hlib, hdup⟩
  rcases hpb : postBucket (degIdx endDeg) (degIdx line.start) with _ | k
  · right
    have hnot : ∀ k,
        line ∉ getBucket k (classifyPost endDeg lines seq allowDup libs) := by
      intro k hk
      rw [mem_getBucket_classifyPost] at hk
      rw [hpb] at hk
      exact Option.noConfusion hk.2.2
    have hne : ¬ (degIdx line.start = degIdx endDeg) := by
      intro hc
      rw [postBucket, if_pos hc] at hpb
      exact Option.noConfusion hpb
    rw [postBucket, if_neg hne] at hpb
    have hguard : ¬ ((degIdx line.start = -1 || degIdx endDeg = -1) = true) := by
      simp [hs, he]
    rw [if_neg hguard] at hpb
    simp only at hpb
    by_cases h1 : circularDistance (degIdx endDeg) (degIdx line.start) = 1
    · rw [if_pos h1] at hpb
      exact absurd hpb (by simp)
    rw [if_neg h1] at hpb
    by_cases h2 : circularDistance (degIdx endDeg) (degIdx line.start) = 2
    · rw [if_pos h2] at hpb
      exact absurd hpb (by simp)
    rw [if_neg h2] at hpb
    by_cases ha : nearestChordToneAboveIndex (degIdx endDeg) = some (degIdx line.start)
    · simp [ha] at hpb
    by_cases hb : nearestChordToneBelowIndex (degIdx endDeg) = some (degIdx line.start)
    · simp [ha, hb] at hpb
    refine ⟨?_, ha, hb, hnot⟩
    rcases degIdx_neg_or_range line.start with hbad | ⟨hs0, hs1⟩
    · exact absurd hbad hs
    rcases degIdx_neg_or_range endDeg with hbad | ⟨he0, he1⟩
    · exact absurd hbad he
    unfold circularDistance at h1 h2 ⊢
    simp only at h1 h2 ⊢
    rw [min_def] at h1 h2 ⊢
    rcases Int.natAbs_eq (degIdx endDeg - degIdx line.start) with hn | hn <;>
      split_ifs at h1 h2 ⊢ <;> omega
  · left
    refine ⟨k, ?_, ?_⟩
    · rw [mem_getBucket_classifyPost]
      exact ⟨hmem, hinc, hpb⟩
    · intro k' hk' hmem'
      rw [mem_getBucket_classifyPost] at hmem'
      rw [hpb] at hmem'
      exact hk' (Option.some_injective _ hmem'.2.2).symm

/-- Witness for C5 at a concrete dropped candidate (end `"1"`,
start `"b5"`). -/
theorem C5_witness :
    circularDistance (degIdx (some "1")) (degIdx (some "b5")) > 2 ∧
      nearestChordToneAboveIndex (degIdx (some "1")) ≠ some (degIdx (some "b5")) ∧
      nearestChordToneBelowIndex (degIdx (some "1")) ≠ some (degIdx (some "b5")) ∧
      ∀ k, mkLine 1 (some "b5") none ∉ getBucket k
        (classifyPost (some "1") [mkLine 1 (some "b5") none] [] true []) := by
  have h := C5_partition (some "1") [mkLine 1 (some "b5") none] [] true []
    (mkLine 1 (some "b5") none) (by decide) (by decide) (Or.inl rfl)
    (by decide) (by decide)
  rcases h with ⟨k, hk, -⟩ | h
  · exfalso
    rw [mem_getBucket_classifyPost] at hk
    have h0 : postBucket (degIdx (some "1"))
        (degIdx (mkLine 1 (some "b5") none).start) = none := by decide
    rw [h0] at hk
    exact Option.noConfusion hk.2.2
  · exact h

/-- C6 (counterexample): the decision list is NOT ordered with
dominant 7 before altered dominant: a line tagged
`"altered dominant"` is bucketed Altered Dominant by the code, while
first-match over the claim's order yields Dominant 7. -/
theorem C6_counterexample :
    ({ id := 1, start := none, endDeg := none, libraryId := none,
        tags := ["altered dominant"] } : Line) ∈
      (categorizeByFunction
        [{ id := 1, start := none, endDeg := none, libraryId := none,
            tags := ["altered dominant"] }]).alteredDominant ∧
    specFirstMatchFunc (tagStrOf
      { id := 1, start := none, endDeg := none, libraryId := none,
        tags := ["altered dominant"] }) = FuncId.dominant7 ∧
    funcBucketOf (tagStrOf
      { id := 1, start := none, endDeg := none, libraryId := none,
        tags := ["altered dominant"] }) ≠
      specFirstMatchFunc (tagStrOf
        { id := 1, start := none, endDeg := none, libraryId := none,
          tags := ["altered dominant"] }) := by
  decide

/-- C6 (amended): `categorizeByFunction` assigns each line to exactly
one bucket by first-match against the fixed ordered decision list in
the SOURCE order — ii-V major/minor, static minor, ALTERED DOMINANT,
dominant 7, phrygian dominant, half/whole diminished, tritone sub —
with Other as the no-match fallback: each bucket is exactly the
first-match filter of the input. -/
theorem C6_amended (lines : List Line) (k : FuncId) :
    getFuncBucket k (categorizeByFunction lines) =
      lines.filter (fun l => decide (firstMatchFunc (tagStrOf l) = k)) := by
  rw [getFuncBucket_categorizeByFunction]
  apply List.filter_congr
  intro x _
  simp [funcBucketOf_eq_firstMatchFunc]

/-- C7 (confirmed): whenever `buildJazzLine` returns a line, its
`tripletStartIndex` is `6` for a 9-note sequence with the default
`-1`, the caller's value otherwise — in particular `-1` stays `-1`
for any other length, and an explicit index is kept unclamped. -/
theorem C7_triplet_default (notes : List Note) (tsi : Int) (l : JLine)
    (h : buildJazzLine notes tsi = .ok l) :
    l.tripletStartIndex = if tsi = -1 ∧ notes.length = 9 then 6 else tsi := by
  unfold buildJazzLine at h
  dsimp only [] at h
  split at h
  · split at h
    · simp only [Except.ok.injEq] at h
      subst h
      by_cases hA : tsi = -1 <;> by_cases hB : notes.length = 9 <;>
        simp [hA, hB]
    · simp at h
    · simp at h
  · simp at h

/-- Witness for C7: nine middle-C notes with the default index give
triplet start 6. -/
theorem C7_witness :
    buildJazzLine (List.replicate 9 cnote) (-1) = .ok c7line ∧
      c7line.tripletStartIndex = 6 := by
  have h : buildJazzLine (List.replicate 9 cnote) (-1) = .ok c7line := by rfl
  refine ⟨h, ?_⟩
  rw [C7_triplet_default _ _ _ h]
  decide

/-- C8 (confirmed): `parseNote` succeeds exactly on one letter `A`–`G`
followed by an optional single accidental (`#` or `B` for flat) and
one decimal digit, failing on every other input; on success the MIDI
number is `(octave+1)*12 + base_semitone(letter) + (+1 sharp /
-1 flat / 0 none)`. -/
theorem C8_parseNote (s : String) :
    (parseNote s).isOk = matchesNotePattern s ∧
      ∀ n, parseNote s = .ok n →
        n.midi = (n.octave + 1) * 12 + baseSemitone n.letter +
          (if n.accidental = "#" then 1
            else if n.accidental = "b" then -1 else 0) := by
  unfold parseNote matchesNotePattern
  rcases hcs : s.toList with _ | ⟨l, _ | ⟨c2, _ | ⟨c3, _ | ⟨c4, rest⟩⟩⟩⟩
  · exact ⟨rfl, fun n hn => absurd hn (by simp)⟩
  · exact ⟨rfl, fun n hn => absurd hn (by simp)⟩
  · -- two characters: letter and octave digit
    cases hL : LETTER_TO_SEMITONE l
    · refine ⟨?_, ?_⟩
      · simp [Except.isOk, Except.toBool, ← LETTER_TO_SEMITONE_isSome, hL]
      · intro n hn
        simp [hL] at hn
    · rename_i base
      have hBase := baseSemitone_of_letter l base hL
      cases hd : c2.isDigit
      · refine ⟨?_, ?_⟩
        · simp [Except.isOk, Except.toBool, hd, ← LETTER_TO_SEMITONE_isSome, hL]
        · intro n hn
          simp [hL, hd] at hn
      · refine ⟨?_, ?_⟩
        · simp [Except.isOk, Except.toBool, hd, ← LETTER_TO_SEMITONE_isSome, hL]
        · intro n hn
          simp [hL, hd, Except.ok.injEq] at hn
          subst hn
          simp [hBase]
  · -- three characters: letter, accidental, octave digit
    cases hL : LETTER_TO_SEMITONE l
    · refine ⟨?_, ?_⟩
      · simp [Except.isOk, Except.toBool, ← LETTER_TO_SEMITONE_isSome, hL]
      · intro n hn
        simp [hL] at hn
    · rename_i base
      have hBase := baseSemitone_of_letter l base hL
      by_cases hflat : c2 = 'B'
      · subst hflat
        cases hd : c3.isDigit
        · refine ⟨?_, ?_⟩
          · simp [Except.isOk, Except.toBool, hd, ← LETTER_TO_SEMITONE_isSome, hL]
          · intro n hn
            simp [hL, hd] at hn
        · refine ⟨?_, ?_⟩
          · simp [Except.isOk, Except.toBool, hd, ← LETTER_TO_SEMITONE_isSome, hL]
          · intro n hn
            simp [hL, hd, Except.ok.injEq] at hn
            subst hn
            simp [hBase]
            omega
      · by_cases hsharp : c2 = '#'
        · subst hsharp
          cases hd : c3.isDigit
          · refine ⟨?_, ?_⟩
            · simp [Except.isOk, Except.toBool, hd, hflat,
                ← LETTER_TO_SEMITONE_isSome, hL]
            · intro n hn
              simp [hL, hd, hflat] at hn
          · refine ⟨?_, ?_⟩
            · simp [Except.isOk, Except.toBool, hd, hflat,
                ← LETTER_TO_SEMITONE_isSome, hL]
            · intro n hn
              simp [hL, hd, hflat, Except.ok.injEq] at hn
              subst hn
              simp [hBase]
              omega
        · refine ⟨?_, ?_⟩
          · simp [Except.isOk, Except.toBool, hflat, hsharp,
              ← LETTER_TO_SEMITONE_isSome, hL]
          · intro n hn
            simp [hL, hflat, hsharp] at hn
  · exact ⟨rfl, fun n hn => absurd hn (by simp)⟩

/-- Witness for C8: `"C#4"` parses to MIDI 61 via the formula. -/
theorem C8_witness :
    c8note.midi = (c8note.octave + 1) * 12 + baseSemitone c8note.letter +
      (if c8note.accidental = "#" then 1
        else if c8note.accidental = "b" then -1 else 0) :=
  (C8_parseNote "C#4").2 c8note (by rfl)

end JazzLines
